import Mathlib

/-
Verification of the graph-execution engine demonstrated by
`src/my_first_example.py` (a LangGraph getting-started example).

The example file defines the node functions (`think_node`, `analyze_node`,
`answer_node`), the router (`should_continue`) and the graph wiring
(`build_graph`); those are translated here directly from the source.
The engine itself (`StateGraph`, `compile`, `invoke` from the `langgraph`
package) is not part of the source tree, so the engine's data model,
compiler and executor are modelled from the specification's words
(spec sections 3, 4.3, 4.4): state merge is a per-field overwrite of
exactly the keys a node returns, the compiler validates that every edge
destination names a registered node, START or END, and the executor walks
the graph from START, invoking nodes, merging partial updates, and
following static or conditional edges until END, with a step budget
("fuel") standing in for the recommended step-limit guard.
-/

-- ============================================================
-- Generic engine, modelled from the spec
-- ============================================================

/-- Modelled from the spec: node identities. START and END are the two
virtual sentinel node identities; every other node is named by a string. -/
inductive NodeRef where
  | START : NodeRef
  | END : NodeRef
  | node : String → NodeRef
deriving DecidableEq, Repr

/-- Modelled from the spec: an edge is either a static transition to a fixed
destination, or a conditional transition given by a routing function (which
may fail, mirroring a router raising) plus a mapping from labels to
destinations. -/
inductive GEdge (σ : Type) where
  | static : NodeRef → GEdge σ
  | cond : (σ → Option String) → List (String × NodeRef) → GEdge σ

/-- Modelled from the spec: the pairing of a Node Registry (name to node
function; a node function may fail, returning none) and an Edge Table
(source to edge; at most one edge per source is looked up). `υ` is the type
of a node's partial update. -/
structure GraphDef (σ υ : Type) where
  nodes : List (String × (σ → Option υ))
  edges : List (NodeRef × GEdge σ)

/-- Node Registry lookup: the function registered under a name, if any. -/
def lookupNode {σ υ : Type} (g : GraphDef σ υ) (n : String) : Option (σ → Option υ) :=
  (g.nodes.find? (fun p => p.1 == n)).map (fun p => p.2)

/-- Edge Table lookup: the edge leaving a node, if any. -/
def findEdge {σ υ : Type} (g : GraphDef σ υ) (r : NodeRef) : Option (GEdge σ) :=
  (g.edges.find? (fun p => p.1 == r)).map (fun p => p.2)

/-- The label-to-destination lookup a conditional edge performs. -/
def lookupLabel (m : List (String × NodeRef)) (lab : String) : Option NodeRef :=
  (m.find? (fun p => p.1 == lab)).map (fun p => p.2)

/-- All destinations an edge can reach. -/
def edgeDests {σ : Type} : GEdge σ → List NodeRef
  | .static d => [d]
  | .cond _ m => m.map (fun p => p.2)

/-- Whether a name is registered in the Node Registry. -/
def isRegistered {σ υ : Type} (g : GraphDef σ υ) (n : String) : Bool :=
  g.nodes.any (fun p => p.1 == n)

/-- Modelled from the spec: a destination is valid when it names a registered
node, START, or END. -/
def destOk {σ υ : Type} (g : GraphDef σ υ) : NodeRef → Bool
  | .START => true
  | .END => true
  | .node n => isRegistered g n

/-- The orphan destinations of a graph: every (source, destination) pair of
an edge whose destination is not a registered node, START or END. -/
def offendingEdges {σ υ : Type} (g : GraphDef σ υ) : List (NodeRef × NodeRef) :=
  g.edges.flatMap (fun p =>
    (edgeDests p.2).filterMap (fun d => if destOk g d then none else some (p.1, d)))

/-- Modelled from the spec: the compile-time validation error, enumerating
every offending (source, destination) pair found. -/
structure ValidationError where
  offending : List (NodeRef × NodeRef)
deriving DecidableEq, Repr

/-- Modelled from the spec: `compile` validates the registry and edge table
and returns the executable graph, or fails with a `ValidationError` that
identifies every edge whose destination is not a registered node, START or
END. (The spec's further dead-end and reachability checks are stated
ambiguously and are contradicted by the spec's own concrete scenario, whose
node B has no outgoing edge yet compiles and runs; they are not modelled.
A node with no outgoing edge is treated by the executor as transitioning
directly to END.) -/
def compile {σ υ : Type} (g : GraphDef σ υ) : Except ValidationError (GraphDef σ υ) :=
  if (offendingEdges g).isEmpty then .ok g else .error ⟨offendingEdges g⟩

/-- Modelled from the spec: the run-time error taxonomy. `RoutingError`
carries the source node's name and the label the router produced;
`NodeExecutionError` the failing node's name (a router that fails is
charged to its source node); `UnknownNodeError` a current node name absent
from the registry (unreachable for compiled graphs);
`StepLimitExceededError` is raised when the step budget runs out. -/
inductive ExecError where
  | RoutingError : String → String → ExecError
  | NodeExecutionError : String → ExecError
  | UnknownNodeError : String → ExecError
  | StepLimitExceededError : ExecError
deriving DecidableEq, Repr

/-- Modelled from the spec: the executor's loop, from an arbitrary current
node. If the current node is END, stop and return the state. Otherwise,
spend one unit of fuel (the step-limit guard): invoke the current node's
function (START invokes nothing), merge the returned partial update into
the state with the supplied merge operation, then advance along the node's
edge — statically, or through the router and its label mapping, failing
with `RoutingError` when the label is not in the mapping. A node with no
outgoing edge advances to END. -/
def runFrom {σ υ : Type} (g : GraphDef σ υ) (merge : σ → υ → σ) :
    Nat → NodeRef → σ → Except ExecError σ
  | _, .END, s => .ok s
  | 0, _, _ => .error .StepLimitExceededError
  | Nat.succ fuel, .START, s =>
    match findEdge g .START with
    | none => runFrom g merge fuel .END s
    | some (.static d) => runFrom g merge fuel d s
    | some (.cond r m) =>
      match r s with
      | none => .error (.NodeExecutionError "START")
      | some lab =>
        match lookupLabel m lab with
        | some d => runFrom g merge fuel d s
        | none => .error (.RoutingError "START" lab)
  | Nat.succ fuel, .node n, s =>
    match lookupNode g n with
    | none => .error (.UnknownNodeError n)
    | some f =>
      match f s with
      | none => .error (.NodeExecutionError n)
      | some u =>
        let s2 := merge s u
        match findEdge g (.node n) with
        | none => runFrom g merge fuel .END s2
        | some (.static d) => runFrom g merge fuel d s2
        | some (.cond r m) =>
          match r s2 with
          | none => .error (.NodeExecutionError n)
          | some lab =>
            match lookupLabel m lab with
            | some d => runFrom g merge fuel d s2
            | none => .error (.RoutingError n lab)

/-- Modelled from the spec: executing a graph starts the loop at START. -/
def invoke {σ υ : Type} (g : GraphDef σ υ) (merge : σ → υ → σ)
    (fuel : Nat) (s : σ) : Except ExecError σ :=
  runFrom g merge fuel .START s

-- ============================================================
-- The example's state, nodes, router and graph (from the source)
-- ============================================================

/-- The example's state record (`class State(TypedDict)`): fields `question`,
`thinking`, `answer`, `step_count`. A field holds `none` when the key is
absent from the Python dict (Python's TypedDict is not enforced at run
time, and the nodes read `step_count` defensively with `.get`). -/
structure ExState where
  question : Option String
  thinking : Option String
  answer : Option String
  step_count : Option Int
deriving DecidableEq, Repr

/-- A partial update as returned by a node: `none` on a field means the key
is absent from the returned dict. -/
structure ExUpdate where
  question : Option String
  thinking : Option String
  answer : Option String
  step_count : Option Int
deriving DecidableEq, Repr

/-- One field's merge: the update's value when the key is present,
otherwise the previous value. -/
def upd {α : Type} (new old : Option α) : Option α :=
  match new with
  | some v => some v
  | none => old

/-- Modelled from the spec: the merge of a partial update into the state,
overwriting exactly the fields whose keys the update carries. -/
def mergeState (s : ExState) (u : ExUpdate) : ExState :=
  ⟨upd u.question s.question, upd u.thinking s.thinking,
   upd u.answer s.answer, upd u.step_count s.step_count⟩

/-- Substring containment of `needle` starting exactly at a list's head. -/
def matchesAt : List Char → List Char → Bool
  | [], _ => true
  | _ :: _, [] => false
  | a :: as, b :: bs => a == b && matchesAt as bs

/-- Substring containment on character lists (Python's `needle in hay`). -/
def containsSub (needle : List Char) : List Char → Bool
  | [] => needle.isEmpty
  | b :: bs => matchesAt needle (b :: bs) || containsSub needle bs

/-- Python's `needle in hay` on strings: substring containment. -/
def substr (needle hay : String) : Bool :=
  containsSub needle.data hay.data

/-- `think_node`: reads `question` (KeyError — i.e. node failure — when the
key is absent), computes `step = state.get("step_count", 0) + 1`, and
returns only the `thinking` and `step_count` keys. -/
def think_node (s : ExState) : Option ExUpdate :=
  match s.question with
  | none => none
  | some question =>
    let step := s.step_count.getD 0 + 1
    let thinking :=
      "[第 " ++ toString step ++ " 步思考] 用户问的是: '" ++ question ++ "'，让我分析一下..."
    some ⟨none, some thinking, none, some step⟩

/-- `analyze_node`: reads `question` (lower-cased) and `thinking` (either
key absent is a KeyError, i.e. node failure), classifies the question by
substring tests in the source's order, and returns only the `thinking`
(appended) and `step_count` keys. -/
def analyze_node (s : ExState) : Option ExUpdate :=
  match s.question, s.thinking with
  | some question0, some thinking =>
    let question := question0.toLower
    let step := s.step_count.getD 0 + 1
    let analysis :=
      if substr "天气" question || substr "weather" question then "这是一个天气查询问题"
      else if substr "时间" question || substr "time" question then "这是一个时间查询问题"
      else if substr "计算" question || substr "+" question || substr "-" question then
        "这是一个数学计算问题"
      else "这是一个一般性问题"
    some ⟨none, some (thinking ++ " -> " ++ analysis), none, some step⟩
  | _, _ => none

/-- Python's `str.isdigit`: non-empty and every character a digit (the
source only ever meets ASCII digits here). -/
def pyIsDigit (s : String) : Bool :=
  !s.isEmpty && s.data.all Char.isDigit

/-- `answer_node`: reads `question` and `thinking` (either key absent is a
KeyError, i.e. node failure), generates the canned answer by the source's
branch order, and returns only the `answer` and `step_count` keys. The
time branch formats `datetime.now()`; that external reading is the
parameter `now`. -/
def answer_node (now : String) (s : ExState) : Option ExUpdate :=
  match s.question, s.thinking with
  | some question, some _thinking =>
    let step := s.step_count.getD 0 + 1
    let answer :=
      if substr "天气" question.toLower then "🌤️ 今天天气晴朗，气温 25°C，适合外出！"
      else if substr "时间" question.toLower then "🕐 现在时间是: " ++ now
      else if substr "+" question then
        let nums := (question.replace " " "").splitOn "+"
        let result := (nums.filter pyIsDigit).foldl (fun acc n => acc + (n.toNat?).getD 0) 0
        "🔢 计算结果: " ++ toString result
      else
        "🤖 这是一个好问题！关于 '" ++ question ++ "'，我的回答是：这需要更多信息才能准确回答。"
    some ⟨none, none, some answer, some step⟩
  | _, _ => none

/-- The simple-question test of `should_continue`: any of the keyword list
occurs in the (already lower-cased) question. -/
def isSimpleQuestion (question : String) : Bool :=
  ["几点", "time", "1+", "2+", "3+", "你好", "hello"].any (fun k => substr k question)

/-- `should_continue`: the router. Reads `question` (key absent is a
failure), lower-cases it, and returns "answer" for simple questions,
"analyze" otherwise. -/
def should_continue (s : ExState) : Option String :=
  match s.question with
  | none => none
  | some question0 =>
    if isSimpleQuestion question0.toLower then some "answer" else some "analyze"

/-- The label-to-destination mapping of the conditional edge leaving
"think" in `build_graph`. -/
def thinkMapping : List (String × NodeRef) :=
  [("analyze", .node "analyze"), ("answer", .node "answer")]

/-- `build_graph`: the example's graph — nodes "think", "analyze",
"answer"; static edge START→think; conditional edge from "think" routed by
`should_continue`; static edges analyze→answer and answer→END. -/
def exGraph (now : String) : GraphDef ExState ExUpdate :=
  ⟨[("think", think_node), ("analyze", analyze_node), ("answer", answer_node now)],
   [(.START, .static (.node "think")),
    (.node "think", .cond should_continue thinkMapping),
    (.node "analyze", .static (.node "answer")),
    (.node "answer", .static .END)]⟩

-- ============================================================
-- The spec's concrete scenario graph (spec section 8)
-- ============================================================

/-- The scenario's node A: returns the partial update setting x to 1. -/
def nodeA (_ : Int) : Option (Option Int) := some (some 1)

/-- The scenario's node B: returns the partial update setting x to 2. -/
def nodeB (_ : Int) : Option (Option Int) := some (some 2)

/-- The scenario's router: "stop" when x >= 1, "go" otherwise. -/
def abRouter (s : Int) : Option String :=
  some (if s ≥ 1 then "stop" else "go")

/-- The merge for the one-field scenario state: overwrite x when the update
carries it. -/
def mergeX (s : Int) (u : Option Int) : Int := u.getD s

/-- The scenario graph: nodes A and B, static edge START→A, conditional
edge A→{"go" ↦ B, "stop" ↦ END}. -/
def abGraph : GraphDef Int (Option Int) :=
  ⟨[("A", nodeA), ("B", nodeB)],
   [(.START, .static (.node "A")),
    (.node "A", .cond abRouter [("go", .node "B"), ("stop", .END)])]⟩

-- ============================================================
-- Further concrete graphs and inputs used by the theorems below
-- ============================================================

/-- A graph whose router can produce a label absent from its mapping. -/
def badGraph : GraphDef Int (Option Int) :=
  ⟨[("A", nodeA)], [(.node "A", .cond (fun _ => some "oops") [("go", .END)])]⟩

/-- A graph with an edge to an unregistered destination name. -/
def ghostGraph : GraphDef Int (Option Int) :=
  ⟨[], [(.START, .static (.node "ghost"))]⟩

/-- An initial state as `main` builds one, for the question "hi". -/
def sHi : ExState := ⟨some "hi", some "", some "", some 0⟩

/-- An initial state as `main` builds one, for the question "你好". -/
def sNihao : ExState := ⟨some "你好", some "", some "", some 0⟩

/-- The update `think_node` returns on `sHi` (from the source's format
string with step 1). -/
def uHi : ExUpdate :=
  ⟨none, some "[第 1 步思考] 用户问的是: 'hi'，让我分析一下...", none, some 1⟩

lemma runFrom_end {σ υ : Type} (g : GraphDef σ υ) (merge : σ → υ → σ)
    (fuel : Nat) (s : σ) : runFrom g merge fuel .END s = .ok s := by
  cases fuel <;> rfl

lemma lookupNode_mem {σ υ : Type} {g : GraphDef σ υ} {n : String}
    {f : σ → Option υ} (h : lookupNode g n = some f) : (n, f) ∈ g.nodes := by
  unfold lookupNode at h
  cases hf : g.nodes.find? (fun p => p.1 == n) with
  | none => simp [hf] at h
  | some p =>
    have hp := List.find?_some hf
    have hmem := List.mem_of_find?_eq_some hf
    simp [hf] at h
    have : p.1 = n := by simpa using hp
    rw [← h, ← this]
    simpa using hmem

lemma findEdge_mem {σ υ : Type} {g : GraphDef σ υ} {r : NodeRef}
    {e : GEdge σ} (h : findEdge g r = some e) : (r, e) ∈ g.edges := by
  unfold findEdge at h
  cases hf : g.edges.find? (fun p => p.1 == r) with
  | none => simp [hf] at h
  | some p =>
    have hp := List.find?_some hf
    have hmem := List.mem_of_find?_eq_some hf
    simp [hf] at h
    have : p.1 = r := by simpa using hp
    rw [← h, ← this]
    simpa using hmem

lemma lookupLabel_mem {m : List (String × NodeRef)} {lab : String}
    {d : NodeRef} (h : lookupLabel m lab = some d) : d ∈ m.map (fun p => p.2) := by
  unfold lookupLabel at h
  cases hf : m.find? (fun p => p.1 == lab) with
  | none => simp [hf] at h
  | some p =>
    have hmem := List.mem_of_find?_eq_some hf
    simp [hf] at h
    rw [← h]
    exact List.mem_map_of_mem _ hmem

lemma mem_offendingEdges {σ υ : Type} {g : GraphDef σ υ} {src : NodeRef}
    {e : GEdge σ} {d : NodeRef} (hmem : (src, e) ∈ g.edges)
    (hd : d ∈ edgeDests e) (hbad : destOk g d = false) :
    (src, d) ∈ offendingEdges g := by
  unfold offendingEdges
  rw [List.mem_flatMap]
  exact ⟨(src, e), hmem, by
    rw [List.mem_filterMap]
    exact ⟨d, hd, by simp [hbad]⟩⟩

lemma destOk_of_no_offending {σ υ : Type} {g : GraphDef σ υ}
    (hg : offendingEdges g = []) {src : NodeRef} {e : GEdge σ} {d : NodeRef}
    (hmem : (src, e) ∈ g.edges) (hd : d ∈ edgeDests e) : destOk g d = true := by
  by_contra h
  have : (src, d) ∈ offendingEdges g :=
    mem_offendingEdges hmem hd (by simpa using h)
  simp [hg] at this

lemma lookupNode_of_registered {σ υ : Type} {g : GraphDef σ υ} {n : String}
    (h : isRegistered g n = true) : ∃ f, lookupNode g n = some f := by
  unfold isRegistered at h
  rw [List.any_eq_true] at h
  obtain ⟨p, hp, hpn⟩ := h
  unfold lookupNode
  cases hf : g.nodes.find? (fun x => x.1 == n) with
  | none =>
    have := List.find?_eq_none.mp hf p hp
    simp [this] at hpn
  | some x => exact ⟨x.2, by simp [hf]⟩

lemma runFrom_no_unknown {σ υ : Type} (g : GraphDef σ υ) (merge : σ → υ → σ)
    (hg : offendingEdges g = []) :
    ∀ (fuel : Nat) (cur : NodeRef) (s : σ), destOk g cur = true →
      ∀ n, runFrom g merge fuel cur s ≠ .error (.UnknownNodeError n) := by
  intro fuel
  induction fuel with
  | zero =>
    intro cur s _ n
    cases cur <;> simp [runFrom]
  | succ fuel ih =>
    intro cur s hcur n
    cases cur with
    | END => simp [runFrom]
    | START =>
      rw [runFrom]
      cases hfe : findEdge g .START with
      | none => exact ih .END s rfl n
      | some e =>
        cases e with
        | static d =>
          exact ih d s
            (destOk_of_no_offending hg (findEdge_mem hfe) (by simp [edgeDests])) n
        | cond r m =>
          cases hr : r s with
          | none => simp [hr]
          | some lab =>
            simp only [hr]
            cases hl : lookupLabel m lab with
            | none => simp [hl]
            | some d =>
              simp only [hl]
              have hd : d ∈ edgeDests (GEdge.cond r m) := by
                simpa [edgeDests] using lookupLabel_mem hl
              exact ih d s (destOk_of_no_offending hg (findEdge_mem hfe) hd) n
    | node nm =>
      obtain ⟨f, hf⟩ := lookupNode_of_registered (by simpa [destOk] using hcur)
      rw [runFrom]
      simp only [hf]
      cases hfs : f s with
      | none => simp [hfs]
      | some u =>
        simp only [hfs]
        cases hfe : findEdge g (.node nm) with
        | none => exact ih .END (merge s u) rfl n
        | some e =>
          cases e with
          | static d =>
            exact ih d (merge s u)
              (destOk_of_no_offending hg (findEdge_mem hfe) (by simp [edgeDests])) n
          | cond r m =>
            cases hr : r (merge s u) with
            | none => simp [hr]
            | some lab =>
              simp only [hr]
              cases hl : lookupLabel m lab with
              | none => simp [hl]
              | some d =>
                simp only [hl]
                have hd : d ∈ edgeDests (GEdge.cond r m) := by
                  simpa [edgeDests] using lookupLabel_mem hl
                exact ih d (merge s u) (destOk_of_no_offending hg (findEdge_mem hfe) hd) n

lemma runFrom_no_routing {σ υ : Type} (g : GraphDef σ υ) (merge : σ → υ → σ)
    (hrouter : ∀ src r m, (src, GEdge.cond r m) ∈ g.edges →
      ∀ t lab, r t = some lab → ∃ d, lookupLabel m lab = some d) :
    ∀ (fuel : Nat) (cur : NodeRef) (s : σ) (n lab : String),
      runFrom g merge fuel cur s ≠ .error (.RoutingError n lab) := by
  intro fuel
  induction fuel with
  | zero =>
    intro cur s n lab
    cases cur <;> simp [runFrom]
  | succ fuel ih =>
    intro cur s n lab
    cases cur with
    | END => simp [runFrom]
    | START =>
      rw [runFrom]
      cases hfe : findEdge g .START with
      | none => exact ih .END s n lab
      | some e =>
        cases e with
        | static d => exact ih d s n lab
        | cond r m =>
          cases hr : r s with
          | none => simp [hr]
          | some lb =>
            simp only [hr]
            obtain ⟨d, hd⟩ := hrouter .START r m (findEdge_mem hfe) s lb hr
            simp only [hd]
            exact ih d s n lab
    | node nm =>
      rw [runFrom]
      cases hf : lookupNode g nm with
      | none => simp [hf]
      | some f =>
        simp only [hf]
        cases hfs : f s with
        | none => simp [hfs]
        | some u =>
          simp only [hfs]
          cases hfe : findEdge g (.node nm) with
          | none => exact ih .END (merge s u) n lab
          | some e =>
            cases e with
            | static d => exact ih d (merge s u) n lab
            | cond r m =>
              cases hr : r (merge s u) with
              | none => simp [hr]
              | some lb =>
                simp only [hr]
                obtain ⟨d, hd⟩ := hrouter (.node nm) r m (findEdge_mem hfe) (merge s u) lb hr
                simp only [hd]
                exact ih d (merge s u) n lab

lemma runFrom_preserves {σ υ : Type} (g : GraphDef σ υ) (merge : σ → υ → σ)
    (P : σ → σ → Prop) (hrefl : ∀ a, P a a)
    (htrans : ∀ a b c, P a b → P b c → P a c)
    (hnode : ∀ n f, (n, f) ∈ g.nodes → ∀ s u, f s = some u → P s (merge s u)) :
    ∀ (fuel : Nat) (cur : NodeRef) (s s' : σ),
      runFrom g merge fuel cur s = .ok s' → P s s' := by
  intro fuel
  induction fuel with
  | zero =>
    intro cur s s' h
    cases cur <;> simp [runFrom] at h
    exact h ▸ hrefl s
  | succ fuel ih =>
    intro cur s s' h
    cases cur with
    | END =>
      simp [runFrom] at h
      exact h ▸ hrefl s
    | START =>
      rw [runFrom] at h
      cases hfe : findEdge g .START with
      | none => rw [hfe] at h; exact ih .END s s' h
      | some e =>
        rw [hfe] at h
        cases e with
        | static d => exact ih d s s' h
        | cond r m =>
          cases hr : r s with
          | none => simp [hr] at h
          | some lb =>
            simp only [hr] at h
            cases hd : lookupLabel m lb with
            | none => simp [hd] at h
            | some d =>
              simp only [hd] at h
              exact ih d s s' h
    | node nm =>
      rw [runFrom] at h
      cases hf : lookupNode g nm with
      | none => simp [hf] at h
      | some f =>
        simp only [hf] at h
        cases hfs : f s with
        | none => simp [hfs] at h
        | some u =>
          simp only [hfs] at h
          have hstep : P s (merge s u) := hnode nm f (lookupNode_mem hf) s u hfs
          cases hfe : findEdge g (.node nm) with
          | none =>
            rw [hfe] at h
            exact htrans s (merge s u) s' hstep (ih .END (merge s u) s' h)
          | some e =>
            rw [hfe] at h
            cases e with
            | static d => exact htrans s (merge s u) s' hstep (ih d (merge s u) s' h)
            | cond r m =>
              cases hr : r (merge s u) with
              | none => simp [hr] at h
              | some lb =>
                simp only [hr] at h
                cases hd : lookupLabel m lb with
                | none => simp [hd] at h
                | some d =>
                  simp only [hd] at h
                  exact htrans s (merge s u) s' hstep (ih d (merge s u) s' h)

lemma think_node_shape (s : ExState) (u : ExUpdate) (h : think_node s = some u) :
    u.question = none ∧ u.answer = none ∧
    u.step_count = some (s.step_count.getD 0 + 1) ∧ ∃ t, u.thinking = some t := by
  cases hq : s.question with
  | none => simp [think_node, hq] at h
  | some q =>
    simp [think_node, hq] at h
    subst h
    simp

lemma analyze_node_shape (s : ExState) (u : ExUpdate) (h : analyze_node s = some u) :
    u.question = none ∧ u.answer = none ∧
    u.step_count = some (s.step_count.getD 0 + 1) ∧ ∃ t, u.thinking = some t := by
  cases hq : s.question with
  | none => simp [analyze_node, hq] at h
  | some q =>
    cases ht : s.thinking with
    | none => simp [analyze_node, hq, ht] at h
    | some t =>
      simp [analyze_node, hq, ht] at h
      subst h
      simp

lemma answer_node_shape (now : String) (s : ExState) (u : ExUpdate)
    (h : answer_node now s = some u) :
    u.question = none ∧ u.thinking = none ∧
    u.step_count = some (s.step_count.getD 0 + 1) ∧ ∃ a, u.answer = some a := by
  cases hq : s.question with
  | none => simp [answer_node, hq] at h
  | some q =>
    cases ht : s.thinking with
    | none => simp [answer_node, hq, ht] at h
    | some t =>
      simp [answer_node, hq, ht] at h
      subst h
      simp

/-- C1: the merge overwrites exactly the returned keys; think_node returns
only thinking and step_count, so question and answer are unchanged. -/
theorem merge_overwrites_exactly_returned_keys (s : ExState) (u : ExUpdate) :
    ((u.question = none → (mergeState s u).question = s.question) ∧
     (∀ v, u.question = some v → (mergeState s u).question = some v) ∧
     (u.thinking = none → (mergeState s u).thinking = s.thinking) ∧
     (∀ v, u.thinking = some v → (mergeState s u).thinking = some v) ∧
     (u.answer = none → (mergeState s u).answer = s.answer) ∧
     (∀ v, u.answer = some v → (mergeState s u).answer = some v) ∧
     (u.step_count = none → (mergeState s u).step_count = s.step_count) ∧
     (∀ v, u.step_count = some v → (mergeState s u).step_count = some v)) ∧
    (think_node s = some u →
      (mergeState s u).question = s.question ∧
      (mergeState s u).answer = s.answer ∧
      (mergeState s u).thinking = u.thinking ∧
      (mergeState s u).step_count = u.step_count) := by
  constructor
  · refine ⟨fun h => ?_, fun v h => ?_, fun h => ?_, fun v h => ?_,
      fun h => ?_, fun v h => ?_, fun h => ?_, fun v h => ?_⟩ <;>
      simp [mergeState, upd, h]
  · intro h
    obtain ⟨hq, ha, hc, t, ht⟩ := think_node_shape s u h
    simp [mergeState, upd, hq, ha, hc, ht]

theorem c1_witness :
    (mergeState sHi uHi).question = sHi.question ∧
    (mergeState sHi uHi).answer = sHi.answer ∧
    (mergeState sHi uHi).thinking = uHi.thinking ∧
    (mergeState sHi uHi).step_count = uHi.step_count :=
  (merge_overwrites_exactly_returned_keys sHi uHi).2 (by decide)

/-- C6: merging a node's update twice (both invocations on the same input
state, hence the same update) equals merging it once. -/
theorem merge_step_idempotent (f : ExState → Option ExUpdate) (s : ExState)
    (u : ExUpdate) (h : f s = some u) :
    mergeState (mergeState s u) u = mergeState s u := by
  obtain ⟨q, t, a, c⟩ := u
  cases q <;> cases t <;> cases a <;> cases c <;> rfl

theorem c6_witness : mergeState (mergeState sHi uHi) uHi = mergeState sHi uHi :=
  merge_step_idempotent think_node sHi uHi (by decide)

/-- C7: each node returns step_count equal to the input's step_count (0
when the key is absent) plus one, which is strictly greater than any
present input value. -/
theorem step_count_strictly_increases (now : String) (s : ExState) (u : ExUpdate) :
    (think_node s = some u → u.step_count = some (s.step_count.getD 0 + 1)) ∧
    (analyze_node s = some u → u.step_count = some (s.step_count.getD 0 + 1)) ∧
    (answer_node now s = some u → u.step_count = some (s.step_count.getD 0 + 1)) ∧
    (∀ k : Int, s.step_count = some k → k < s.step_count.getD 0 + 1) := by
  refine ⟨fun h => (think_node_shape s u h).2.2.1,
    fun h => (analyze_node_shape s u h).2.2.1,
    fun h => (answer_node_shape now s u h).2.2.1,
    fun k hk => ?_⟩
  simp [hk]

theorem c7_witness : uHi.step_count = some (sHi.step_count.getD 0 + 1) :=
  (step_count_strictly_increases "NOW" sHi uHi).1 (by decide)

/-- C3: the scenario graph compiles, and invoking it from x = 0 runs only
A (the router sees x = 1 after the merge and returns "stop"), for every
step budget of at least two. -/
theorem scenario_stops_after_A :
    compile abGraph = .ok abGraph ∧
    ∀ fuel : Nat, invoke abGraph mergeX (fuel + 2) 0 = .ok 1 := by
  refine ⟨rfl, fun fuel => ?_⟩
  show runFrom abGraph mergeX (Nat.succ (Nat.succ fuel)) .START 0 = .ok 1
  rw [runFrom]
  show runFrom abGraph mergeX (Nat.succ fuel) (.node "A") 0 = .ok 1
  rw [runFrom]
  show runFrom abGraph mergeX fuel .END 1 = .ok 1
  exact runFrom_end abGraph mergeX fuel 1

/-- C4: a conditional edge whose router produces a label absent from its
mapping makes the step fail with RoutingError naming that node and label. -/
theorem missing_label_fails_with_routing_error {σ υ : Type} (g : GraphDef σ υ)
    (merge : σ → υ → σ) (fuel : Nat) (n : String) (s : σ) (f : σ → Option υ)
    (u : υ) (r : σ → Option String) (m : List (String × NodeRef)) (lab : String)
    (hf : lookupNode g n = some f) (hu : f s = some u)
    (he : findEdge g (.node n) = some (.cond r m))
    (hr : r (merge s u) = some lab) (hm : lookupLabel m lab = none) :
    runFrom g merge (fuel + 1) (.node n) s = .error (.RoutingError n lab) := by
  show runFrom g merge (Nat.succ fuel) (.node n) s = .error (.RoutingError n lab)
  rw [runFrom]
  simp [hf, hu, he, hr, hm]

theorem c4_witness :
    runFrom badGraph mergeX 1 (.node "A") 0 = .error (.RoutingError "A" "oops") :=
  missing_label_fails_with_routing_error badGraph mergeX 0 "A" 0 nodeA (some 1)
    (fun _ => some "oops") [("go", .END)] "oops" rfl rfl rfl rfl rfl

/-- C5: an edge whose destination is neither a registered node nor START
nor END makes compile fail with a ValidationError that lists that
(source, destination) pair, and no executable graph is returned. -/
theorem orphan_destination_fails_compile {σ υ : Type} (g : GraphDef σ υ)
    (src : NodeRef) (e : GEdge σ) (d : NodeRef) (hmem : (src, e) ∈ g.edges)
    (hd : d ∈ edgeDests e) (hbad : destOk g d = false) :
    (∃ err : ValidationError, compile g = .error err ∧ (src, d) ∈ err.offending) ∧
    ∀ cg, compile g ≠ .ok cg := by
  have hoff : (src, d) ∈ offendingEdges g := mem_offendingEdges hmem hd hbad
  have hne : (offendingEdges g).isEmpty = false := by
    cases hlist : offendingEdges g with
    | nil => rw [hlist] at hoff; simp at hoff
    | cons a l => simp
  constructor
  · exact ⟨⟨offendingEdges g⟩, by simp [compile, hne], hoff⟩
  · intro cg
    simp [compile, hne]

theorem c5_witness :
    (∃ err : ValidationError, compile ghostGraph = .error err ∧
      (NodeRef.START, NodeRef.node "ghost") ∈ err.offending) ∧
    ∀ cg, compile ghostGraph ≠ .ok cg :=
  orphan_destination_fails_compile ghostGraph .START (.static (.node "ghost"))
    (.node "ghost") (by simp [ghostGraph]) (by simp [edgeDests]) rfl

/-- C2: executing a compiled graph from START either returns a final state
(which the executor produces only at END) or fails with exactly one of the
run-time errors RoutingError, NodeExecutionError or StepLimitExceededError;
with the step-limit guard (the fuel) it never returns without reaching a
terminal state, and UnknownNodeError is unreachable because compilation
validated every destination. -/
theorem run_ends_or_raises_defined_error {σ υ : Type} (g cg : GraphDef σ υ)
    (hc : compile g = .ok cg) (merge : σ → υ → σ) (fuel : Nat) (s : σ) :
    (∃ s', invoke cg merge fuel s = .ok s') ∨
    (∃ err, invoke cg merge fuel s = .error err ∧
      (err = .StepLimitExceededError ∨
       (∃ n lab, err = .RoutingError n lab) ∨
       (∃ n, err = .NodeExecutionError n))) := by
  have hcg : cg = g ∧ offendingEdges g = [] := by
    by_cases hemp : (offendingEdges g).isEmpty = true
    · constructor
      · simp [compile, hemp] at hc
        exact hc.symm
      · exact List.isEmpty_iff.mp hemp
    · simp [compile, hemp] at hc
  obtain ⟨hcg, hg⟩ := hcg
  subst hcg
  cases hres : invoke cg merge fuel s with
  | ok s' => exact Or.inl ⟨s', rfl⟩
  | error err =>
    refine Or.inr ⟨err, rfl, ?_⟩
    cases err with
    | RoutingError n lab => exact Or.inr (Or.inl ⟨n, lab, rfl⟩)
    | NodeExecutionError n => exact Or.inr (Or.inr ⟨n, rfl⟩)
    | StepLimitExceededError => exact Or.inl rfl
    | UnknownNodeError n =>
      exact absurd hres (runFrom_no_unknown cg merge hg fuel .START s rfl n)

theorem c2_witness :
    (∃ s', invoke abGraph mergeX 5 0 = .ok s') ∨
    (∃ err, invoke abGraph mergeX 5 0 = .error err ∧
      (err = .StepLimitExceededError ∨
       (∃ n lab, err = .RoutingError n lab) ∨
       (∃ n, err = .NodeExecutionError n))) :=
  run_ends_or_raises_defined_error abGraph abGraph rfl mergeX 5 0

lemma mergeState_question_none (s : ExState) (u : ExUpdate)
    (h : u.question = none) : (mergeState s u).question = s.question := by
  simp [mergeState, upd, h]

/-- C8: no node of the example returns the question key, so invoking the
compiled example graph leaves question equal to its initial value. -/
theorem question_field_immutable (now : String) (s : ExState) (u : ExUpdate)
    (fuel : Nat) (s' : ExState) :
    (think_node s = some u → u.question = none) ∧
    (analyze_node s = some u → u.question = none) ∧
    (answer_node now s = some u → u.question = none) ∧
    (invoke (exGraph now) mergeState fuel s = .ok s' → s'.question = s.question) := by
  refine ⟨fun h => (think_node_shape s u h).1,
    fun h => (analyze_node_shape s u h).1,
    fun h => (answer_node_shape now s u h).1, fun h => ?_⟩
  refine runFrom_preserves (exGraph now) mergeState
    (fun a b => b.question = a.question) (fun a => rfl)
    (fun a b c hab hbc => hbc.trans hab) ?_ fuel .START s s' h
  intro nm f hmem t v hv
  simp [exGraph] at hmem
  rcases hmem with ⟨_, rfl⟩ | ⟨_, rfl⟩ | ⟨_, rfl⟩
  · exact mergeState_question_none t v (think_node_shape t v hv).1
  · exact mergeState_question_none t v (analyze_node_shape t v hv).1
  · exact mergeState_question_none t v (answer_node_shape now t v hv).1

theorem c8_witness :
    uHi.question = none ∧ (mergeState sHi uHi).question = sHi.question :=
  ⟨(question_field_immutable "NOW" sHi uHi 4 sHi).1 (by decide),
   mergeState_question_none sHi uHi
     ((question_field_immutable "NOW" sHi uHi 4 sHi).1 (by decide))⟩

/-- C9: the router of the example returns only "answer" or "analyze"
whenever the question is present, both labels are mapped by the think
node's conditional edge, and no run of the example graph can fail with
RoutingError. -/
theorem routing_error_unreachable_in_example (now : String) (s : ExState)
    (q : String) (fuel : Nat) (n lab : String) :
    (s.question = some q →
      should_continue s = some "answer" ∨ should_continue s = some "analyze") ∧
    lookupLabel thinkMapping "answer" = some (.node "answer") ∧
    lookupLabel thinkMapping "analyze" = some (.node "analyze") ∧
    invoke (exGraph now) mergeState fuel s ≠ .error (.RoutingError n lab) := by
  refine ⟨fun hq => ?_, rfl, rfl, ?_⟩
  · cases hb : isSimpleQuestion q.toLower with
    | true => exact Or.inl (by simp [should_continue, hq, hb])
    | false => exact Or.inr (by simp [should_continue, hq, hb])
  · refine runFrom_no_routing (exGraph now) mergeState ?_ fuel .START s n lab
    intro src r m hmem t lab' hr
    simp [exGraph, thinkMapping] at hmem
    obtain ⟨hsrc, hrr, hmm⟩ := hmem
    subst hrr
    subst hmm
    cases hqt : t.question with
    | none => simp [should_continue, hqt] at hr
    | some q0 =>
      cases hb : isSimpleQuestion q0.toLower with
      | true =>
        simp [should_continue, hqt, hb] at hr
        exact ⟨.node "answer", by rw [← hr]; rfl⟩
      | false =>
        simp [should_continue, hqt, hb] at hr
        exact ⟨.node "analyze", by rw [← hr]; rfl⟩

theorem c9_witness :
    should_continue sNihao = some "answer" ∨ should_continue sNihao = some "analyze" :=
  (routing_error_unreachable_in_example "NOW" sNihao "你好" 4 "a" "b").1 rfl

lemma runFrom_start_static {σ υ : Type} (g : GraphDef σ υ) (merge : σ → υ → σ)
    (fuel : Nat) (s : σ) (d : NodeRef)
    (he : findEdge g .START = some (.static d)) :
    runFrom g merge (Nat.succ fuel) .START s = runFrom g merge fuel d s := by
  rw [runFrom]
  simp [he]

lemma runFrom_node_static {σ υ : Type} (g : GraphDef σ υ) (merge : σ → υ → σ)
    (fuel : Nat) (n : String) (s : σ) (f : σ → Option υ) (u : υ) (d : NodeRef)
    (hf : lookupNode g n = some f) (hu : f s = some u)
    (he : findEdge g (.node n) = some (.static d)) :
    runFrom g merge (Nat.succ fuel) (.node n) s = runFrom g merge fuel d (merge s u) := by
  rw [runFrom]
  simp [hf, hu, he]

lemma runFrom_node_cond {σ υ : Type} (g : GraphDef σ υ) (merge : σ → υ → σ)
    (fuel : Nat) (n : String) (s : σ) (f : σ → Option υ) (u : υ)
    (r : σ → Option String) (m : List (String × NodeRef)) (lab : String) (d : NodeRef)
    (hf : lookupNode g n = some f) (hu : f s = some u)
    (he : findEdge g (.node n) = some (.cond r m))
    (hr : r (merge s u) = some lab) (hl : lookupLabel m lab = some d) :
    runFrom g merge (Nat.succ fuel) (.node n) s = runFrom g merge fuel d (merge s u) := by
  rw [runFrom]
  simp [hf, hu, he, hr, hl]

/-- C10: with the question present, the example run either is
think→answer (router label "answer"; two node invocations after START,
final step_count = initial step_count, read as 0 when absent, plus 2) or
think→analyze→answer (label "analyze"; three invocations, plus 3); a step
budget of 4 always suffices and any larger budget returns the same final
state, so no step-limit guard is needed and no node runs twice. -/
theorem example_graph_terminates_in_three_steps (now : String) (s : ExState)
    (q : String) (hq : s.question = some q) (fuel : Nat) :
    ∃ s', invoke (exGraph now) mergeState (fuel + 4) s = .ok s' ∧
      invoke (exGraph now) mergeState 4 s = .ok s' ∧
      ((should_continue s = some "answer" ∧
        s'.step_count = some (s.step_count.getD 0 + 2)) ∨
       (should_continue s = some "analyze" ∧
        s'.step_count = some (s.step_count.getD 0 + 3))) := by
  cases hu1 : think_node s with
  | none => simp [think_node, hq] at hu1
  | some u1 =>
  obtain ⟨h1q, h1a, h1c, t1, h1t⟩ := think_node_shape s u1 hu1
  have hs1q : (mergeState s u1).question = some q :=
    (mergeState_question_none s u1 h1q).trans hq
  have hs1t : (mergeState s u1).thinking = some t1 := by
    simp [mergeState, upd, h1t]
  have hs1c : (mergeState s u1).step_count = some (s.step_count.getD 0 + 1) := by
    simp [mergeState, upd, h1c]
  have hsc : should_continue s =
      some (if isSimpleQuestion q.toLower then "answer" else "analyze") := by
    cases hb : isSimpleQuestion q.toLower <;> simp [should_continue, hq, hb]
  have hsc1 : should_continue (mergeState s u1) =
      some (if isSimpleQuestion q.toLower then "answer" else "analyze") := by
    cases hb : isSimpleQuestion q.toLower <;> simp [should_continue, hs1q, hb]
  cases hb : isSimpleQuestion q.toLower with
  | true =>
    cases hu2 : answer_node now (mergeState s u1) with
    | none => simp [answer_node, hs1q, hs1t] at hu2
    | some u2 =>
    obtain ⟨h2q, h2t, h2c, a2, h2a⟩ := answer_node_shape now (mergeState s u1) u2 hu2
    have hend : (mergeState (mergeState s u1) u2).step_count =
        some (s.step_count.getD 0 + 2) := by
      rw [show (mergeState (mergeState s u1) u2).step_count =
        upd u2.step_count (mergeState s u1).step_count from rfl, h2c, hs1c]
      simp [upd]
      ring
    have hrun : ∀ fl : Nat, invoke (exGraph now) mergeState (fl + 3) s =
        .ok (mergeState (mergeState s u1) u2) := by
      intro fl
      show runFrom (exGraph now) mergeState (Nat.succ (fl + 2)) .START s = _
      rw [runFrom_start_static (exGraph now) mergeState (fl + 2) s (.node "think") rfl]
      show runFrom (exGraph now) mergeState (Nat.succ (fl + 1)) (.node "think") s = _
      rw [runFrom_node_cond (exGraph now) mergeState (fl + 1) "think" s think_node u1
        should_continue thinkMapping "answer" (.node "answer") rfl hu1 rfl
        (by simp [hsc1, hb]) rfl]
      show runFrom (exGraph now) mergeState (Nat.succ fl) (.node "answer")
        (mergeState s u1) = _
      rw [runFrom_node_static (exGraph now) mergeState fl "answer" (mergeState s u1)
        (answer_node now) u2 .END rfl hu2 rfl]
      exact runFrom_end _ _ fl _
    exact ⟨mergeState (mergeState s u1) u2, hrun (fuel + 1), hrun 1,
      Or.inl ⟨by simp [hsc, hb], hend⟩⟩
  | false =>
    cases hu2 : analyze_node (mergeState s u1) with
    | none => simp [analyze_node, hs1q, hs1t] at hu2
    | some u2 =>
    obtain ⟨h2q, h2a, h2c, t2, h2t⟩ := analyze_node_shape (mergeState s u1) u2 hu2
    have hs2q : (mergeState (mergeState s u1) u2).question = some q :=
      (mergeState_question_none _ u2 h2q).trans hs1q
    have hs2t : (mergeState (mergeState s u1) u2).thinking = some t2 := by
      simp [mergeState, upd, h2t]
    have hs2c : (mergeState (mergeState s u1) u2).step_count =
        some (s.step_count.getD 0 + 2) := by
      rw [show (mergeState (mergeState s u1) u2).step_count =
        upd u2.step_count (mergeState s u1).step_count from rfl, h2c, hs1c]
      simp [upd]
      ring
    cases hu3 : answer_node now (mergeState (mergeState s u1) u2) with
    | none => simp [answer_node, hs2q, hs2t] at hu3
    | some u3 =>
    obtain ⟨h3q, h3t, h3c, a3, h3a⟩ :=
      answer_node_shape now (mergeState (mergeState s u1) u2) u3 hu3
    have hend : (mergeState (mergeState (mergeState s u1) u2) u3).step_count =
        some (s.step_count.getD 0 + 3) := by
      rw [show (mergeState (mergeState (mergeState s u1) u2) u3).step_count =
        upd u3.step_count (mergeState (mergeState s u1) u2).step_count from rfl, h3c, hs2c]
      simp [upd]
      ring
    have hrun : ∀ fl : Nat, invoke (exGraph now) mergeState (fl + 4) s =
        .ok (mergeState (mergeState (mergeState s u1) u2) u3) := by
      intro fl
      show runFrom (exGraph now) mergeState (Nat.succ (fl + 3)) .START s = _
      rw [runFrom_start_static (exGraph now) mergeState (fl + 3) s (.node "think") rfl]
      show runFrom (exGraph now) mergeState (Nat.succ (fl + 2)) (.node "think") s = _
      rw [runFrom_node_cond (exGraph now) mergeState (fl + 2) "think" s think_node u1
        should_continue thinkMapping "analyze" (.node "analyze") rfl hu1 rfl
        (by simp [hsc1, hb]) rfl]
      show runFrom (exGraph now) mergeState (Nat.succ (fl + 1)) (.node "analyze")
        (mergeState s u1) = _
      rw [runFrom_node_static (exGraph now) mergeState (fl + 1) "analyze"
        (mergeState s u1) analyze_node u2 (.node "answer") rfl hu2 rfl]
      show runFrom (exGraph now) mergeState (Nat.succ fl) (.node "answer")
        (mergeState (mergeState s u1) u2) = _
      rw [runFrom_node_static (exGraph now) mergeState fl "answer"
        (mergeState (mergeState s u1) u2) (answer_node now) u3 .END rfl hu3 rfl]
      exact runFrom_end _ _ fl _
    exact ⟨mergeState (mergeState (mergeState s u1) u2) u3, hrun fuel, hrun 0,
      Or.inr ⟨by simp [hsc, hb], hend⟩⟩

theorem c10_witness :
    ∃ s', invoke (exGraph "NOW") mergeState (0 + 4) sNihao = .ok s' ∧
      invoke (exGraph "NOW") mergeState 4 sNihao = .ok s' ∧
      ((should_continue sNihao = some "answer" ∧
        s'.step_count = some (sNihao.step_count.getD 0 + 2)) ∨
       (should_continue sNihao = some "analyze" ∧
        s'.step_count = some (sNihao.step_count.getD 0 + 3))) :=
  example_graph_terminates_in_three_steps "NOW" sNihao "你好" rfl 0
